import Mathlib

/-!
Shallow embedding of `src/libs-rs/fungible-token/src/lib.rs` (NEAR bridge
fungible token): per-account balances, delegated allowances, and the
two-phase mint-verification bridge.

Modelling choices:
* `AccountId` is `String`; u128 balances are `Nat` with overflow made
  explicit through `checkedAdd` (bound `U128_LIMIT = 2 ^ 128`).
* `near_sdk::collections::Map` is an association list with first-match
  lookup, in-place overwrite on insert and key filtering on remove.
* `env::sha256` key hashing is dropped: the spec treats hashing as a
  storage-locality optimization with negligible collision probability, so
  storage keys are modelled by the account ids themselves (hashing an
  injective function).
* Host context (`env::predecessor_account_id`, `env::current_account_id`)
  is an explicit `Env` record; `env::state_exists` is an explicit boolean
  argument of `FungibleToken.new`.
* Every `assert!`/`env::panic` becomes an `Except TokenError` error; a
  returned error models the host discarding the whole call's effects.
-/

abbrev AccountId := String

/-- Upper bound of the u128 domain: balances and supply live in `[0, 2^128)`. -/
def U128_LIMIT : Nat := 2 ^ 128

instance {e a : Type} [DecidableEq e] [DecidableEq a] : DecidableEq (Except e a) := fun x y =>
  match x, y with
  | Except.ok u, Except.ok v =>
    if h : u = v then Decidable.isTrue (by rw [h]) else Decidable.isFalse (by simp [h])
  | Except.error u, Except.error v =>
    if h : u = v then Decidable.isTrue (by rw [h]) else Decidable.isFalse (by simp [h])
  | Except.ok _, Except.error _ => Decidable.isFalse (by simp)
  | Except.error _, Except.ok _ => Decidable.isFalse (by simp)

/-- Errors corresponding to the `env::panic` / `assert!` messages of the
contract (plus the fatal arithmetic-overflow abort). -/
inductive TokenError where
  | invalidOwnerId
  | invalidNewOwnerId
  | invalidEscrowId
  | alreadyInitialized
  | selfAllowance
  | zeroTransfer
  | notEnoughBalance
  | notEnoughAllowance
  | callerNotContract
  | verificationFailed
  | overflow
deriving DecidableEq, Repr

/-- Modelled from the spec: internal computation uses native 128-bit
unsigned arithmetic with overflow treated as a fatal error (the build
profile fixing Rust's `+=` overflow behaviour is not part of `src/`). -/
def checkedAdd (a b : Nat) : Except TokenError Nat :=
  if a + b < U128_LIMIT then Except.ok (a + b) else Except.error TokenError.overflow

/-- Character classification of near-sdk account-id validation: `some true`
for a separator, `some false` for a lowercase alphanumeric, `none` for an
invalid character. -/
def accountIdCharClass (c : Char) : Option Bool :=
  if (97 ≤ c.toNat ∧ c.toNat ≤ 122) ∨ (48 ≤ c.toNat ∧ c.toNat ≤ 57) then some false
  else if c.toNat = 45 ∨ c.toNat = 95 ∨ c.toNat = 46 then some true
  else none

/-- Scanning loop of the account-id validation: the flag records whether the
previous character was a separator (initially `true`, so a leading separator
is rejected; a trailing separator is rejected at the end). -/
def accountIdScan : List Char → Bool → Bool
  | [], lastSep => !lastSep
  | c :: rest, lastSep =>
    match accountIdCharClass c with
    | none => false
    | some sep => if sep && lastSep then false else accountIdScan rest sep

/-- Modelled from the spec: `env::is_valid_account_id` of the near-sdk
dependency (outside `src/`) — length between 2 and 64, lowercase
alphanumeric runs joined by single `-`, `_` or `.` separators. -/
def is_valid_account_id (id : AccountId) : Bool :=
  decide (2 ≤ id.data.length) && decide (id.data.length ≤ 64) && accountIdScan id.data true

/-- First-match lookup in an association list (`Map::get`). -/
def mapGet (m : List (AccountId × α)) (k : AccountId) : Option α :=
  match m with
  | [] => none
  | (k', v) :: rest => if k = k' then some v else mapGet rest k

/-- Insert-or-overwrite in an association list (`Map::insert`): replaces the
first entry with the given key, appends when the key is absent. -/
def mapInsert (m : List (AccountId × α)) (k : AccountId) (v : α) : List (AccountId × α) :=
  match m with
  | [] => [(k, v)]
  | (k', v') :: rest => if k = k' then (k, v) :: rest else (k', v') :: mapInsert rest k v

/-- Key removal in an association list (`Map::remove`). -/
def mapRemove (m : List (AccountId × α)) (k : AccountId) : List (AccountId × α) :=
  match m with
  | [] => []
  | (k', v') :: rest => if k = k' then mapRemove rest k else (k', v') :: mapRemove rest k

/-- `Account`: balance plus the escrow allowance table. -/
structure Account where
  balance : Nat
  allowances : List (AccountId × Nat)
deriving DecidableEq, Repr

/-- `Account::new`: zero balance, no allowances (the storage-prefix argument
of the source has no observable effect and is dropped). -/
def Account.new : Account := { balance := 0, allowances := [] }

/-- `Account::set_allowance`: positive amounts are stored, a zero amount
removes the entry. -/
def Account.set_allowance (self : Account) (escrow_account_id : AccountId)
    (allowance : Nat) : Account :=
  if allowance > 0 then
    { self with allowances := mapInsert self.allowances escrow_account_id allowance }
  else
    { self with allowances := mapRemove self.allowances escrow_account_id }

/-- `Account::get_allowance`: the stored amount, or 0 when absent. -/
def Account.get_allowance (self : Account) (escrow_account_id : AccountId) : Nat :=
  (mapGet self.allowances escrow_account_id).getD 0

/-- The contract state: accounts map, total supply and bridge configuration. -/
structure FungibleToken where
  accounts : List (AccountId × Account)
  total_supply : Nat
  prover_account : AccountId
  verify_ethash : Bool
deriving DecidableEq, Repr

/-- Host call context: caller and contract identities. -/
structure Env where
  predecessor_account_id : AccountId
  current_account_id : AccountId
deriving DecidableEq, Repr

/-- `FungibleToken::get_account`: the stored account or a fresh zero one. -/
def FungibleToken.get_account (self : FungibleToken) (owner_id : AccountId) : Account :=
  (mapGet self.accounts owner_id).getD Account.new

/-- `FungibleToken::set_account`: unconditional overwrite. -/
def FungibleToken.set_account (self : FungibleToken) (owner_id : AccountId)
    (account : Account) : FungibleToken :=
  { self with accounts := mapInsert self.accounts owner_id account }

/-- `FungibleToken::new`: initialization; `state_exists` models
`env::state_exists()`. The owner-validity assert precedes the
already-initialized assert, as in the source. -/
def FungibleToken.new (state_exists : Bool) (owner_id : AccountId)
    (total_supply : Nat) (prover_account : AccountId) (verify_ethash : Bool) :
    Except TokenError FungibleToken :=
  if is_valid_account_id owner_id = false then Except.error TokenError.invalidOwnerId
  else if state_exists then Except.error TokenError.alreadyInitialized
  else
    let ft : FungibleToken :=
      { accounts := [], total_supply := total_supply,
        prover_account := prover_account, verify_ethash := verify_ethash }
    let account := ft.get_account owner_id
    let account := { account with balance := total_supply }
    Except.ok (ft.set_account owner_id account)

/-- `FungibleToken::set_allowance`: the caller (`env::predecessor_account_id`)
is the balance owner; self-allowance is rejected. -/
def FungibleToken.set_allowance (env : Env) (self : FungibleToken)
    (escrow_account_id : AccountId) (allowance : Nat) :
    Except TokenError FungibleToken :=
  if is_valid_account_id escrow_account_id = false then
    Except.error TokenError.invalidEscrowId
  else
    let owner_id := env.predecessor_account_id
    if escrow_account_id = owner_id then Except.error TokenError.selfAllowance
    else
      let account := self.get_account owner_id
      let account := account.set_allowance escrow_account_id allowance
      Except.ok (self.set_account owner_id account)

/-- `FungibleToken::transfer_from`: validation, balance debit, allowance
debit when delegated, persist owner, then credit and persist the recipient
(re-read after the owner write, so a self-transfer sees the debited
account). -/
def FungibleToken.transfer_from (env : Env) (self : FungibleToken)
    (owner_id new_owner_id : AccountId) (amount : Nat) :
    Except TokenError FungibleToken :=
  if is_valid_account_id owner_id = false then Except.error TokenError.invalidOwnerId
  else if is_valid_account_id new_owner_id = false then
    Except.error TokenError.invalidNewOwnerId
  else if amount = 0 then Except.error TokenError.zeroTransfer
  else
    let account := self.get_account owner_id
    if account.balance < amount then Except.error TokenError.notEnoughBalance
    else
      let account : Account := { account with balance := account.balance - amount }
      let escrow_account_id := env.predecessor_account_id
      let debited : Except TokenError Account :=
        if escrow_account_id ≠ owner_id then
          let allowance := account.get_allowance escrow_account_id
          if allowance < amount then Except.error TokenError.notEnoughAllowance
          else Except.ok (account.set_allowance escrow_account_id (allowance - amount))
        else Except.ok account
      match debited with
      | Except.error e => Except.error e
      | Except.ok account =>
        let self := self.set_account owner_id account
        let new_account := self.get_account new_owner_id
        match checkedAdd new_account.balance amount with
        | Except.error e => Except.error e
        | Except.ok b =>
          Except.ok (self.set_account new_owner_id { new_account with balance := b })

/-- `FungibleToken::transfer`: `transfer_from` with the caller as owner. -/
def FungibleToken.transfer (env : Env) (self : FungibleToken)
    (new_owner_id : AccountId) (amount : Nat) : Except TokenError FungibleToken :=
  self.transfer_from env env.predecessor_account_id new_owner_id amount

/-- The opaque cross-chain proof forwarded to the Prover. -/
structure Proof where
  log_index : Nat
  log_entry_data : List Nat
  receipt_index : Nat
  receipt_data : List Nat
  header_data : List Nat
  proof : List (List Nat)
deriving DecidableEq, Repr

/-- The external `prover::verify_log_entry` request issued by `mint`. -/
structure VerifyLogEntryCall where
  log_index : Nat
  log_entry_data : List Nat
  receipt_index : Nat
  receipt_data : List Nat
  header_data : List Nat
  proof : List (List Nat)
  skip_bridge_call : Bool
  receiver : AccountId
deriving DecidableEq, Repr

/-- The chained `finish_mint` continuation registered by `mint`. -/
structure FinishMintCallback where
  new_owner_id : AccountId
  amount : Nat
  receiver : AccountId
deriving DecidableEq, Repr

/-- The pending promise returned by mint phase 1. -/
structure MintPromise where
  call : VerifyLogEntryCall
  callback : FinishMintCallback
deriving DecidableEq, Repr

/-- `FungibleToken::mint` (phase 1): takes the state by immutable reference,
forwards the proof fields to the prover with `skip_bridge_call =
!verify_ethash`, and chains `finish_mint` addressed to the contract itself.
The returned pair is (unchanged state, pending promise). -/
def FungibleToken.mint (env : Env) (self : FungibleToken) (new_owner_id : AccountId)
    (amount : Nat) (proof : Proof) : FungibleToken × MintPromise :=
  (self,
    { call :=
        { log_index := proof.log_index
          log_entry_data := proof.log_entry_data
          receipt_index := proof.receipt_index
          receipt_data := proof.receipt_data
          header_data := proof.header_data
          proof := proof.proof
          skip_bridge_call := !self.verify_ethash
          receiver := self.prover_account }
      callback :=
        { new_owner_id := new_owner_id
          amount := amount
          receiver := env.current_account_id } })

/-- `FungibleToken::finish_mint` (phase 2): caller must be the contract
itself, then the verification flag must be true, then the recipient balance
and the total supply are credited (balance addition checked first, as in the
source order). -/
def FungibleToken.finish_mint (env : Env) (self : FungibleToken)
    (verification_success : Bool) (new_owner_id : AccountId) (amount : Nat) :
    Except TokenError FungibleToken :=
  if env.predecessor_account_id ≠ env.current_account_id then
    Except.error TokenError.callerNotContract
  else if verification_success = false then Except.error TokenError.verificationFailed
  else
    let account := self.get_account new_owner_id
    match checkedAdd account.balance amount with
    | Except.error e => Except.error e
    | Except.ok b =>
      match checkedAdd self.total_supply amount with
      | Except.error e => Except.error e
      | Except.ok ts =>
        let self := { self with total_supply := ts }
        Except.ok (self.set_account new_owner_id { account with balance := b })

/-- `FungibleToken::get_total_supply`. -/
def FungibleToken.get_total_supply (self : FungibleToken) : Nat :=
  self.total_supply

/-- `FungibleToken::get_balance`. -/
def FungibleToken.get_balance (self : FungibleToken) (owner_id : AccountId) : Nat :=
  (self.get_account owner_id).balance

/-- `FungibleToken::get_allowance` (the externally callable read, with its
two validity asserts). -/
def FungibleToken.get_allowance (self : FungibleToken)
    (owner_id escrow_account_id : AccountId) : Except TokenError Nat :=
  if is_valid_account_id owner_id = false then Except.error TokenError.invalidOwnerId
  else if is_valid_account_id escrow_account_id = false then
    Except.error TokenError.invalidEscrowId
  else Except.ok ((self.get_account owner_id).get_allowance escrow_account_id)

/-- Sum of all stored balances. -/
def sumBalances (m : List (AccountId × Account)) : Nat :=
  (m.map (fun p => p.2.balance)).sum

/-- The conservation invariant: stored balances sum to the total supply. -/
def conserved (ft : FungibleToken) : Prop :=
  sumBalances ft.accounts = ft.total_supply

instance (ft : FungibleToken) : Decidable (conserved ft) := by
  unfold conserved; infer_instance

/-- Reachable-state well-formedness: conservation plus the u128 bound on the
total supply. -/
def WF (ft : FungibleToken) : Prop :=
  conserved ft ∧ ft.total_supply < U128_LIMIT

instance (ft : FungibleToken) : Decidable (WF ft) := by
  unfold WF; infer_instance

/-- Allowance-table invariant: every stored allowance entry is positive. -/
def allowancesPositive (acc : Account) : Prop :=
  ∀ k v, mapGet acc.allowances k = some v → 0 < v

/-! ### Concrete example states for witnesses and counterexamples -/

/-- Example ledger: carol holds the whole supply of 100 and bob has an
allowance of 10 on the account of carol. -/
def exampleFt : FungibleToken :=
  { accounts := [("carol.near", { balance := 100, allowances := [("bob.near", 10)] })],
    total_supply := 100, prover_account := "prover.near", verify_ethash := true }

/-- Call context: carol calls the contract deployed at token.near. -/
def envCarol : Env :=
  { predecessor_account_id := "carol.near", current_account_id := "token.near" }

/-- Call context: bob calls the contract deployed at token.near. -/
def envBob : Env :=
  { predecessor_account_id := "bob.near", current_account_id := "token.near" }

/-- Call context of the mint continuation: the contract calls itself. -/
def envToken : Env :=
  { predecessor_account_id := "token.near", current_account_id := "token.near" }

/-- Ledger at the top of the u128 range: bob holds `2 ^ 128 - 1` tokens. -/
def maxFt : FungibleToken :=
  { accounts := [("bob.near", { balance := U128_LIMIT - 1, allowances := [] })],
    total_supply := U128_LIMIT - 1, prover_account := "prover.near", verify_ethash := true }

/-- `exampleFt` after carol directly transfers 5 to alice. -/
def exampleAfterTransfer : FungibleToken :=
  { accounts := [("carol.near", { balance := 95, allowances := [("bob.near", 10)] }),
                 ("alice.near", { balance := 5, allowances := [] })],
    total_supply := 100, prover_account := "prover.near", verify_ethash := true }

/-- `exampleFt` after bob delegately transfers 5 from carol back to carol:
the balance of carol is unchanged while the allowance dropped to 5. -/
def c4Result : FungibleToken :=
  { accounts := [("carol.near", { balance := 100, allowances := [("bob.near", 5)] })],
    total_supply := 100, prover_account := "prover.near", verify_ethash := true }

/-- `exampleFt` after bob delegately transfers the full allowance of 10 from
carol to alice: the allowance entry is removed, not stored as zero. -/
def c8Result : FungibleToken :=
  { accounts := [("carol.near", { balance := 90, allowances := [] }),
                 ("alice.near", { balance := 10, allowances := [] })],
    total_supply := 100, prover_account := "prover.near", verify_ethash := true }

/-! ### Association-list map lemmas -/

theorem mapGet_mapInsert_self (m : List (AccountId × α)) (k : AccountId) (v : α) :
    mapGet (mapInsert m k v) k = some v := by
  induction m with
  | nil => simp [mapInsert, mapGet]
  | cons hd tl ih =>
    obtain ⟨k', v'⟩ := hd
    by_cases h : k = k'
    · subst h
      simp [mapInsert, mapGet]
    · simp [mapInsert, mapGet, h, ih]

theorem mapGet_mapInsert_ne (m : List (AccountId × α)) (k : AccountId) (v : α)
    (x : AccountId) (hx : x ≠ k) : mapGet (mapInsert m k v) x = mapGet m x := by
  induction m with
  | nil => simp [mapInsert, mapGet, hx]
  | cons hd tl ih =>
    obtain ⟨k', v'⟩ := hd
    by_cases h : k = k'
    · subst h
      simp [mapInsert, mapGet, hx]
    · by_cases h2 : x = k'
      · simp [mapInsert, mapGet, h, h2]
      · simp [mapInsert, mapGet, h, h2, ih]

theorem mapGet_mapRemove_self (m : List (AccountId × α)) (k : AccountId) :
    mapGet (mapRemove m k) k = none := by
  induction m with
  | nil => simp [mapRemove, mapGet]
  | cons hd tl ih =>
    obtain ⟨k', v'⟩ := hd
    by_cases h : k = k'
    · subst h
      simp [mapRemove, ih]
    · simp [mapRemove, mapGet, h, ih]

theorem mapGet_mapRemove_ne (m : List (AccountId × α)) (k : AccountId)
    (x : AccountId) (hx : x ≠ k) : mapGet (mapRemove m k) x = mapGet m x := by
  induction m with
  | nil => simp [mapRemove, mapGet]
  | cons hd tl ih =>
    obtain ⟨k', v'⟩ := hd
    by_cases h : k = k'
    · subst h
      simp [mapRemove, mapGet, hx, ih]
    · by_cases h2 : x = k'
      · simp [mapRemove, mapGet, h, h2, ih]
      · simp [mapRemove, mapGet, h, h2, ih]

theorem sumBalances_cons (k : AccountId) (a : Account) (m : List (AccountId × Account)) :
    sumBalances ((k, a) :: m) = a.balance + sumBalances m := by
  simp [sumBalances]

theorem sumBalances_mapInsert (m : List (AccountId × Account)) (k : AccountId) (a : Account) :
    sumBalances (mapInsert m k a) + ((mapGet m k).getD Account.new).balance
      = sumBalances m + a.balance := by
  induction m with
  | nil => simp [mapInsert, mapGet, sumBalances, Account.new]
  | cons hd tl ih =>
    obtain ⟨k', v'⟩ := hd
    by_cases h : k = k'
    · subst h
      simp [mapInsert, mapGet, sumBalances_cons]
      omega
    · simp [mapInsert, mapGet, h, sumBalances_cons]
      omega

theorem balance_mapGet_le_sumBalances (m : List (AccountId × Account)) (k : AccountId) :
    ((mapGet m k).getD Account.new).balance ≤ sumBalances m := by
  induction m with
  | nil => simp [mapGet, sumBalances, Account.new]
  | cons hd tl ih =>
    obtain ⟨k', v'⟩ := hd
    by_cases h : k = k'
    · subst h
      simp [mapGet, sumBalances_cons]
    · simp [mapGet, h, sumBalances_cons]
      omega

theorem balances_two_mapGet_le_sumBalances (m : List (AccountId × Account))
    (k1 k2 : AccountId) (hk : k1 ≠ k2) :
    ((mapGet m k1).getD Account.new).balance + ((mapGet m k2).getD Account.new).balance
      ≤ sumBalances m := by
  induction m with
  | nil => simp [mapGet, sumBalances, Account.new]
  | cons hd tl ih =>
    obtain ⟨k', v'⟩ := hd
    by_cases h1 : k1 = k'
    · subst h1
      have h2 : ¬ k2 = k1 := fun h => hk h.symm
      have hle := balance_mapGet_le_sumBalances tl k2
      simp [mapGet, h2, sumBalances_cons]
      omega
    · by_cases h2 : k2 = k'
      · subst h2
        have hle := balance_mapGet_le_sumBalances tl k1
        simp [mapGet, h1, sumBalances_cons]
        omega
      · have := ih
        simp [mapGet, h1, h2, sumBalances_cons]
        omega

/-! ### `set_account` / `get_account` lemmas -/

theorem get_account_set_account_self (ft : FungibleToken) (k : AccountId) (a : Account) :
    (ft.set_account k a).get_account k = a := by
  simp [FungibleToken.set_account, FungibleToken.get_account, mapGet_mapInsert_self]

theorem get_account_set_account_ne (ft : FungibleToken) (k x : AccountId) (a : Account)
    (h : x ≠ k) : (ft.set_account k a).get_account x = ft.get_account x := by
  simp [FungibleToken.set_account, FungibleToken.get_account, mapGet_mapInsert_ne _ _ _ _ h]

theorem sumBalances_set_account (ft : FungibleToken) (k : AccountId) (a : Account) :
    sumBalances (ft.set_account k a).accounts + (ft.get_account k).balance
      = sumBalances ft.accounts + a.balance := by
  simpa [FungibleToken.set_account, FungibleToken.get_account]
    using sumBalances_mapInsert ft.accounts k a

theorem total_supply_set_account (ft : FungibleToken) (k : AccountId) (a : Account) :
    (ft.set_account k a).total_supply = ft.total_supply := rfl

/-! ### `Account` allowance lemmas -/

theorem Account.set_allowance_balance (acc : Account) (e : AccountId) (a : Nat) :
    (acc.set_allowance e a).balance = acc.balance := by
  unfold Account.set_allowance
  split <;> rfl

theorem Account.allowances_set_allowance (acc : Account) (e : AccountId) (a : Nat) :
    (acc.set_allowance e a).allowances
      = if a > 0 then mapInsert acc.allowances e a else mapRemove acc.allowances e := by
  unfold Account.set_allowance
  split <;> simp_all

theorem Account.get_allowance_set_allowance_self (acc : Account) (e : AccountId)
    (a : Nat) : (acc.set_allowance e a).get_allowance e = a := by
  unfold Account.get_allowance
  rw [Account.allowances_set_allowance]
  by_cases h : a > 0
  · simp [h, mapGet_mapInsert_self]
  · simp [h, mapGet_mapRemove_self]
    omega

theorem Account.get_allowance_set_allowance_ne (acc : Account) (e x : AccountId)
    (a : Nat) (h : x ≠ e) :
    (acc.set_allowance e a).get_allowance x = acc.get_allowance x := by
  unfold Account.get_allowance
  rw [Account.allowances_set_allowance]
  by_cases hp : a > 0
  · simp [hp, mapGet_mapInsert_ne _ _ _ _ h]
  · simp [hp, mapGet_mapRemove_ne _ _ _ h]

theorem Account.set_allowance_zero_removes (acc : Account) (e : AccountId) :
    mapGet (acc.set_allowance e 0).allowances e = none := by
  rw [Account.allowances_set_allowance]
  simp [mapGet_mapRemove_self]

theorem allowancesPositive_set_allowance (acc : Account) (e : AccountId) (a : Nat)
    (h : allowancesPositive acc) : allowancesPositive (acc.set_allowance e a) := by
  intro k v hk
  rw [Account.allowances_set_allowance] at hk
  by_cases hp : a > 0
  · rw [if_pos hp] at hk
    by_cases hke : k = e
    · subst hke
      rw [mapGet_mapInsert_self] at hk
      cases hk
      exact hp
    · rw [mapGet_mapInsert_ne _ _ _ _ hke] at hk
      exact h k v hk
  · rw [if_neg hp] at hk
    by_cases hke : k = e
    · subst hke
      rw [mapGet_mapRemove_self] at hk
      cases hk
    · rw [mapGet_mapRemove_ne _ _ _ hke] at hk
      exact h k v hk

/-! ### Helper reduction lemmas for structure updates -/

theorem Account.get_allowance_balance_update (acc : Account) (b : Nat) (e : AccountId) :
    ({ acc with balance := b } : Account).get_allowance e = acc.get_allowance e := rfl

theorem FungibleToken.get_account_supply_update (ft : FungibleToken) (t : Nat)
    (x : AccountId) :
    ({ ft with total_supply := t } : FungibleToken).get_account x = ft.get_account x := rfl

/-! ### `FungibleToken.new` -/

theorem new_ok_spec (owner_id : AccountId) (ts : Nat) (pa : AccountId) (vm : Bool)
    (hv : is_valid_account_id owner_id = true) :
    FungibleToken.new false owner_id ts pa vm = Except.ok
      { accounts := [(owner_id, { balance := ts, allowances := [] })],
        total_supply := ts, prover_account := pa, verify_ethash := vm } := by
  unfold FungibleToken.new
  rw [if_neg (by simp [hv]), if_neg (by simp)]
  rfl

theorem new_invalid_owner (se : Bool) (owner_id : AccountId) (ts : Nat) (pa : AccountId)
    (vm : Bool) (hv : is_valid_account_id owner_id = false) :
    FungibleToken.new se owner_id ts pa vm = Except.error TokenError.invalidOwnerId := by
  unfold FungibleToken.new
  rw [if_pos hv]

theorem new_already_initialized (owner_id : AccountId) (ts : Nat) (pa : AccountId)
    (vm : Bool) (hv : is_valid_account_id owner_id = true) :
    FungibleToken.new true owner_id ts pa vm = Except.error TokenError.alreadyInitialized := by
  unfold FungibleToken.new
  rw [if_neg (by simp [hv]), if_pos rfl]

/-! ### `FungibleToken.set_allowance` -/

theorem set_allowance_ok_spec (env : Env) (ft : FungibleToken) (e : AccountId) (al : Nat)
    (hv : is_valid_account_id e = true) (hne : e ≠ env.predecessor_account_id) :
    ft.set_allowance env e al = Except.ok
      (ft.set_account env.predecessor_account_id
        ((ft.get_account env.predecessor_account_id).set_allowance e al)) := by
  unfold FungibleToken.set_allowance
  rw [if_neg (by simp [hv]), if_neg hne]

theorem set_allowance_conserves (env : Env) (ft : FungibleToken) (e : AccountId)
    (al : Nat) (ft' : FungibleToken) (hc : conserved ft)
    (h : ft.set_allowance env e al = Except.ok ft') :
    conserved ft' ∧ ft'.total_supply = ft.total_supply := by
  simp only [FungibleToken.set_allowance] at h
  split at h
  · simp at h
  · split at h
    · simp at h
    · rw [Except.ok.injEq] at h
      subst h
      unfold conserved at hc ⊢
      rw [total_supply_set_account]
      have hs := sumBalances_set_account ft env.predecessor_account_id
        ((ft.get_account env.predecessor_account_id).set_allowance e al)
      rw [Account.set_allowance_balance] at hs
      omega

/-! ### `FungibleToken.finish_mint` -/

theorem finish_mint_not_self (env : Env) (ft : FungibleToken) (v : Bool)
    (r : AccountId) (a : Nat) (h : env.predecessor_account_id ≠ env.current_account_id) :
    ft.finish_mint env v r a = Except.error TokenError.callerNotContract := by
  unfold FungibleToken.finish_mint
  rw [if_pos h]

theorem finish_mint_failed_verification (env : Env) (ft : FungibleToken)
    (r : AccountId) (a : Nat) (h : env.predecessor_account_id = env.current_account_id) :
    ft.finish_mint env false r a = Except.error TokenError.verificationFailed := by
  unfold FungibleToken.finish_mint
  rw [if_neg (by simp [h]), if_pos rfl]

theorem finish_mint_ok_spec (env : Env) (ft : FungibleToken) (r : AccountId) (a : Nat)
    (hself : env.predecessor_account_id = env.current_account_id)
    (hb : (ft.get_account r).balance + a < U128_LIMIT)
    (hts : ft.total_supply + a < U128_LIMIT) :
    ft.finish_mint env true r a = Except.ok
      (({ ft with total_supply := ft.total_supply + a } : FungibleToken).set_account r
        { ft.get_account r with balance := (ft.get_account r).balance + a }) := by
  unfold FungibleToken.finish_mint
  rw [if_neg (by simp [hself]), if_neg (by simp)]
  simp only [checkedAdd, if_pos hb, if_pos hts]

theorem finish_mint_overflow_balance (env : Env) (ft : FungibleToken) (r : AccountId)
    (a : Nat) (hself : env.predecessor_account_id = env.current_account_id)
    (hb : U128_LIMIT ≤ (ft.get_account r).balance + a) :
    ft.finish_mint env true r a = Except.error TokenError.overflow := by
  unfold FungibleToken.finish_mint
  rw [if_neg (by simp [hself]), if_neg (by simp)]
  simp only [checkedAdd, if_neg (Nat.not_lt.mpr hb)]

theorem finish_mint_overflow_supply (env : Env) (ft : FungibleToken) (r : AccountId)
    (a : Nat) (hself : env.predecessor_account_id = env.current_account_id)
    (hb : (ft.get_account r).balance + a < U128_LIMIT)
    (hts : U128_LIMIT ≤ ft.total_supply + a) :
    ft.finish_mint env true r a = Except.error TokenError.overflow := by
  unfold FungibleToken.finish_mint
  rw [if_neg (by simp [hself]), if_neg (by simp)]
  simp only [checkedAdd, if_pos hb, if_neg (Nat.not_lt.mpr hts)]

theorem checkedAdd_ok_elim (x y b : Nat) (h : checkedAdd x y = Except.ok b) :
    x + y < U128_LIMIT ∧ b = x + y := by
  unfold checkedAdd at h
  split at h
  · rw [Except.ok.injEq] at h
    exact ⟨by assumption, h.symm⟩
  · simp at h

theorem finish_mint_ok_elim (env : Env) (ft : FungibleToken) (v : Bool) (r : AccountId)
    (a : Nat) (ft' : FungibleToken) (h : ft.finish_mint env v r a = Except.ok ft') :
    v = true ∧ env.predecessor_account_id = env.current_account_id ∧
    (ft.get_account r).balance + a < U128_LIMIT ∧
    ft.total_supply + a < U128_LIMIT ∧
    ft' = ({ ft with total_supply := ft.total_supply + a } : FungibleToken).set_account r
      { ft.get_account r with balance := (ft.get_account r).balance + a } := by
  simp only [FungibleToken.finish_mint] at h
  split at h
  · simp at h
  · split at h
    · simp at h
    · rename_i hns hv
      split at h
      · simp at h
      · rename_i b heqb
        split at h
        · simp at h
        · rename_i ts heqts
          obtain ⟨hb, hbeq⟩ := checkedAdd_ok_elim _ _ _ heqb
          obtain ⟨hts, htseq⟩ := checkedAdd_ok_elim _ _ _ heqts
          subst hbeq
          subst htseq
          rw [Except.ok.injEq] at h
          refine ⟨by revert hv; cases v <;> simp, by revert hns; simp, hb, hts, h.symm⟩

/-! ### `FungibleToken.transfer_from` -/

theorem Account.balance_update_balance (acc : Account) (b : Nat) :
    ({ acc with balance := b } : Account).balance = b := rfl

theorem transfer_from_insufficient_balance (env : Env) (ft : FungibleToken)
    (o r : AccountId) (a : Nat) (hvo : is_valid_account_id o = true)
    (hvr : is_valid_account_id r = true) (ha : 0 < a)
    (hbal : (ft.get_account o).balance < a) :
    ft.transfer_from env o r a = Except.error TokenError.notEnoughBalance := by
  simp only [FungibleToken.transfer_from]
  rw [if_neg (by simp [hvo]), if_neg (by simp [hvr]), if_neg (by omega), if_pos hbal]

theorem transfer_from_ok_elim (env : Env) (ft : FungibleToken) (o r : AccountId)
    (a : Nat) (ft' : FungibleToken) (h : ft.transfer_from env o r a = Except.ok ft') :
    is_valid_account_id o = true ∧ is_valid_account_id r = true ∧ 0 < a ∧
    a ≤ (ft.get_account o).balance ∧
    ∃ acc : Account,
      ((env.predecessor_account_id = o ∧
          acc = { ft.get_account o with balance := (ft.get_account o).balance - a }) ∨
        (env.predecessor_account_id ≠ o ∧
          a ≤ (ft.get_account o).get_allowance env.predecessor_account_id ∧
          acc = ({ ft.get_account o with
              balance := (ft.get_account o).balance - a } : Account).set_allowance
            env.predecessor_account_id
            ((ft.get_account o).get_allowance env.predecessor_account_id - a))) ∧
      ((ft.set_account o acc).get_account r).balance + a < U128_LIMIT ∧
      ft' = (ft.set_account o acc).set_account r
        { (ft.set_account o acc).get_account r with
            balance := ((ft.set_account o acc).get_account r).balance + a } := by
  simp only [FungibleToken.transfer_from] at h
  split at h
  · simp at h
  · split at h
    · simp at h
    · split at h
      · simp at h
      · rename_i hvo hvr ha
        split at h
        · simp at h
        · rename_i hbal
          split at h
          · simp at h
          · rename_i acc hacc
            split at h
            · simp at h
            · rename_i b heqb
              rw [Except.ok.injEq] at h
              obtain ⟨hb, hbeq⟩ := checkedAdd_ok_elim _ _ _ heqb
              subst hbeq
              refine ⟨by revert hvo; cases is_valid_account_id o <;> simp,
                by revert hvr; cases is_valid_account_id r <;> simp,
                by omega, Nat.not_lt.mp hbal, acc, ?_, hb, h.symm⟩
              by_cases hdel : env.predecessor_account_id = o
              · left
                rw [if_neg (by simp [hdel])] at hacc
                rw [Except.ok.injEq] at hacc
                exact ⟨hdel, hacc.symm⟩
              · right
                rw [if_pos hdel] at hacc
                split at hacc
                · simp at hacc
                · rename_i hallow
                  rw [Except.ok.injEq] at hacc
                  rw [Account.get_allowance_balance_update] at hallow hacc
                  exact ⟨hdel, Nat.not_lt.mp hallow, hacc.symm⟩

theorem transfer_from_conserves (env : Env) (ft : FungibleToken) (o r : AccountId)
    (a : Nat) (ft' : FungibleToken) (hc : conserved ft)
    (h : ft.transfer_from env o r a = Except.ok ft') :
    conserved ft' ∧ ft'.total_supply = ft.total_supply := by
  obtain ⟨_, _, _, hbal, acc, hacc, hover, hft'⟩ := transfer_from_ok_elim env ft o r a ft' h
  have haccbal : acc.balance = (ft.get_account o).balance - a := by
    rcases hacc with ⟨_, rfl⟩ | ⟨_, _, rfl⟩
    · rfl
    · rw [Account.set_allowance_balance, Account.balance_update_balance]
  subst hft'
  refine ⟨?_, rfl⟩
  have e1 := sumBalances_set_account ft o acc
  have e2 := sumBalances_set_account (ft.set_account o acc) r
    { (ft.set_account o acc).get_account r with
        balance := ((ft.set_account o acc).get_account r).balance + a }
  have g_eq : ({ (ft.set_account o acc).get_account r with
      balance := ((ft.set_account o acc).get_account r).balance + a } : Account).balance
      = ((ft.set_account o acc).get_account r).balance + a := rfl
  rw [g_eq] at e2
  unfold conserved at hc ⊢
  rw [total_supply_set_account, total_supply_set_account]
  omega

theorem transfer_from_delegated_ok (env : Env) (ft : FungibleToken) (o r : AccountId)
    (a : Nat) (hvo : is_valid_account_id o = true) (hvr : is_valid_account_id r = true)
    (ha : 0 < a) (hro : r ≠ o) (hdel : env.predecessor_account_id ≠ o)
    (hbal : a ≤ (ft.get_account o).balance)
    (hallow : a ≤ (ft.get_account o).get_allowance env.predecessor_account_id)
    (hover : (ft.get_account r).balance + a < U128_LIMIT) :
    ft.transfer_from env o r a = Except.ok
      ((ft.set_account o
        (({ ft.get_account o with balance := (ft.get_account o).balance - a } : Account).set_allowance
          env.predecessor_account_id
          ((ft.get_account o).get_allowance env.predecessor_account_id - a))).set_account r
        { ft.get_account r with balance := (ft.get_account r).balance + a }) := by
  have hmid : ∀ acc : Account, (ft.set_account o acc).get_account r = ft.get_account r :=
    fun acc => get_account_set_account_ne ft o r acc hro
  simp only [FungibleToken.transfer_from]
  rw [if_neg (by simp [hvo]), if_neg (by simp [hvr]), if_neg (by omega),
    if_neg (Nat.not_lt.mpr hbal), if_pos hdel, Account.get_allowance_balance_update,
    if_neg (Nat.not_lt.mpr hallow)]
  simp only [hmid, checkedAdd, if_pos hover, Account.get_allowance_balance_update]

theorem transfer_from_self_direct_ok (env : Env) (ft : FungibleToken) (o : AccountId)
    (a : Nat) (hvo : is_valid_account_id o = true) (ha : 0 < a)
    (hpred : env.predecessor_account_id = o)
    (hbal : a ≤ (ft.get_account o).balance)
    (hlt : (ft.get_account o).balance < U128_LIMIT) :
    ∃ ft', ft.transfer_from env o o a = Except.ok ft' ∧
      (ft'.get_account o).balance = (ft.get_account o).balance ∧
      (ft'.get_account o).allowances = (ft.get_account o).allowances ∧
      ft'.total_supply = ft.total_supply := by
  have hov : ((ft.get_account o).balance - a) + a < U128_LIMIT := by omega
  simp only [FungibleToken.transfer_from]
  rw [if_neg (by simp [hvo]), if_neg (by simp [hvo]), if_neg (by omega),
    if_neg (Nat.not_lt.mpr hbal), if_neg (by simp [hpred])]
  simp only [get_account_set_account_self, checkedAdd, if_pos hov]
  refine ⟨_, rfl, ?_, ?_, rfl⟩
  · rw [get_account_set_account_self]
    show ((ft.get_account o).balance - a) + a = (ft.get_account o).balance
    omega
  · rw [get_account_set_account_self]

theorem transfer_from_self_delegated_ok (env : Env) (ft : FungibleToken) (o : AccountId)
    (a : Nat) (hvo : is_valid_account_id o = true) (ha : 0 < a)
    (hdel : env.predecessor_account_id ≠ o)
    (hbal : a ≤ (ft.get_account o).balance)
    (hallow : a ≤ (ft.get_account o).get_allowance env.predecessor_account_id)
    (hlt : (ft.get_account o).balance < U128_LIMIT) :
    ∃ ft', ft.transfer_from env o o a = Except.ok ft' ∧
      (ft'.get_account o).balance = (ft.get_account o).balance ∧
      (ft'.get_account o).get_allowance env.predecessor_account_id
        = (ft.get_account o).get_allowance env.predecessor_account_id - a ∧
      ft'.total_supply = ft.total_supply := by
  have hov : ((ft.get_account o).balance - a) + a < U128_LIMIT := by omega
  simp only [FungibleToken.transfer_from]
  rw [if_neg (by simp [hvo]), if_neg (by simp [hvo]), if_neg (by omega),
    if_neg (Nat.not_lt.mpr hbal), if_pos hdel, Account.get_allowance_balance_update,
    if_neg (Nat.not_lt.mpr hallow)]
  simp only [get_account_set_account_self, checkedAdd, Account.set_allowance_balance,
    Account.balance_update_balance, if_pos hov]
  refine ⟨_, rfl, ?_, ?_, rfl⟩
  · rw [get_account_set_account_self]
    show ((ft.get_account o).balance - a) + a = (ft.get_account o).balance
    omega
  · rw [get_account_set_account_self]
    show (({ ft.get_account o with
        balance := (ft.get_account o).balance - a } : Account).set_allowance
          env.predecessor_account_id
          ((ft.get_account o).get_allowance env.predecessor_account_id - a)).get_allowance
        env.predecessor_account_id
      = (ft.get_account o).get_allowance env.predecessor_account_id - a
    rw [Account.get_allowance_set_allowance_self]

theorem transfer_from_credit_overflow (env : Env) (ft : FungibleToken) (o r : AccountId)
    (a : Nat) (hvo : is_valid_account_id o = true) (hvr : is_valid_account_id r = true)
    (ha : 0 < a) (hro : r ≠ o) (hbal : a ≤ (ft.get_account o).balance)
    (hstep : env.predecessor_account_id = o ∨
      a ≤ (ft.get_account o).get_allowance env.predecessor_account_id)
    (hover : U128_LIMIT ≤ (ft.get_account r).balance + a) :
    ft.transfer_from env o r a = Except.error TokenError.overflow := by
  have hmid : ∀ acc : Account, (ft.set_account o acc).get_account r = ft.get_account r :=
    fun acc => get_account_set_account_ne ft o r acc hro
  simp only [FungibleToken.transfer_from]
  rw [if_neg (by simp [hvo]), if_neg (by simp [hvr]), if_neg (by omega),
    if_neg (Nat.not_lt.mpr hbal)]
  by_cases hdel : env.predecessor_account_id = o
  · rw [if_neg (by simp [hdel])]
    simp only [hmid, checkedAdd, if_neg (Nat.not_lt.mpr hover)]
  · rcases hstep with hstep | hallow
    · exact absurd hstep hdel
    · rw [if_pos hdel, Account.get_allowance_balance_update,
        if_neg (Nat.not_lt.mpr hallow)]
      simp only [hmid, checkedAdd, if_neg (Nat.not_lt.mpr hover)]

theorem transfer_from_allowance_exhausted (env : Env) (ft : FungibleToken)
    (o r : AccountId) (a : Nat) (ft' : FungibleToken)
    (hdel : env.predecessor_account_id ≠ o)
    (hexact : (ft.get_account o).get_allowance env.predecessor_account_id = a)
    (h : ft.transfer_from env o r a = Except.ok ft') :
    mapGet (ft'.get_account o).allowances env.predecessor_account_id = none := by
  obtain ⟨_, _, _, hbal, acc, hacc, hover, hft'⟩ := transfer_from_ok_elim env ft o r a ft' h
  rcases hacc with ⟨hpo, _⟩ | ⟨_, _, hacc⟩
  · exact absurd hpo hdel
  · subst hft'
    rw [hexact, Nat.sub_self] at hacc
    have hremoved : mapGet acc.allowances env.predecessor_account_id = none := by
      rw [hacc]
      exact Account.set_allowance_zero_removes _ _
    by_cases hro : r = o
    · subst hro
      rw [get_account_set_account_self]
      show mapGet ({ (ft.set_account r acc).get_account r with
          balance := ((ft.set_account r acc).get_account r).balance + a } : Account).allowances
          env.predecessor_account_id = none
      rw [show ({ (ft.set_account r acc).get_account r with
          balance := ((ft.set_account r acc).get_account r).balance + a } : Account).allowances
          = ((ft.set_account r acc).get_account r).allowances from rfl,
        get_account_set_account_self]
      exact hremoved
    · rw [get_account_set_account_ne _ _ _ _ (fun hh => hro hh.symm)]
      -- wait: final state is mid.set_account r ...; owner lookup o ≠ r
      rw [get_account_set_account_self]
      exact hremoved

theorem new_ok_elim (se : Bool) (o : AccountId) (ts : Nat) (pa : AccountId) (vm : Bool)
    (ft' : FungibleToken) (h : FungibleToken.new se o ts pa vm = Except.ok ft') :
    se = false ∧ is_valid_account_id o = true ∧
    ft' = { accounts := [(o, { balance := ts, allowances := [] })],
            total_supply := ts, prover_account := pa, verify_ethash := vm } := by
  unfold FungibleToken.new at h
  split at h
  · simp at h
  · split at h
    · simp at h
    · rename_i hv hse
      rw [Except.ok.injEq] at h
      refine ⟨by revert hse; cases se <;> simp,
        by revert hv; cases is_valid_account_id o <;> simp, ?_⟩
      rw [← h]
      rfl

theorem two_balances_le_total (ft : FungibleToken) (hc : conserved ft) (x y : AccountId)
    (hxy : x ≠ y) :
    (ft.get_account x).balance + (ft.get_account y).balance ≤ ft.total_supply := by
  have hb := balances_two_mapGet_le_sumBalances ft.accounts x y hxy
  unfold conserved at hc
  unfold FungibleToken.get_account
  omega

theorem finish_mint_conserves (env : Env) (ft : FungibleToken) (v : Bool) (r : AccountId)
    (a : Nat) (ft' : FungibleToken) (hc : conserved ft)
    (h : ft.finish_mint env v r a = Except.ok ft') :
    conserved ft' ∧ ft'.total_supply = ft.total_supply + a ∧
    (ft'.get_account r).balance = (ft.get_account r).balance + a := by
  obtain ⟨hv, hself, hb, hts, hft'⟩ := finish_mint_ok_elim env ft v r a ft' h
  subst hft'
  refine ⟨?_, rfl, ?_⟩
  · have e2 := sumBalances_set_account
      ({ ft with total_supply := ft.total_supply + a } : FungibleToken) r
      { ft.get_account r with balance := (ft.get_account r).balance + a }
    have g_eq : ({ ft.get_account r with
        balance := (ft.get_account r).balance + a } : Account).balance
        = (ft.get_account r).balance + a := rfl
    have acc_eq : ({ ft with total_supply := ft.total_supply + a } : FungibleToken).accounts
        = ft.accounts := rfl
    have get_eq : ({ ft with total_supply := ft.total_supply + a } : FungibleToken).get_account r
        = ft.get_account r := rfl
    have ts_eq : ({ ft with total_supply := ft.total_supply + a } : FungibleToken).total_supply
        = ft.total_supply + a := rfl
    rw [g_eq, acc_eq, get_eq] at e2
    unfold conserved at hc ⊢
    rw [total_supply_set_account, ts_eq]
    omega
  · rw [get_account_set_account_self]

theorem finish_mint_ok_props (env : Env) (ft : FungibleToken) (r : AccountId) (a : Nat)
    (hself : env.predecessor_account_id = env.current_account_id)
    (hb : (ft.get_account r).balance + a < U128_LIMIT)
    (hts : ft.total_supply + a < U128_LIMIT) :
    ∃ ft', ft.finish_mint env true r a = Except.ok ft' ∧
      (ft'.get_account r).balance = (ft.get_account r).balance + a ∧
      ft'.total_supply = ft.total_supply + a ∧
      (∀ x, x ≠ r → ft'.get_account x = ft.get_account x) ∧
      (ft'.get_account r).allowances = (ft.get_account r).allowances := by
  refine ⟨_, finish_mint_ok_spec env ft r a hself hb hts, ?_, rfl, ?_, ?_⟩
  · rw [get_account_set_account_self]
  · intro x hx
    rw [get_account_set_account_ne _ _ _ _ hx]
    rfl
  · rw [get_account_set_account_self]

/-! ### Claim theorems -/

/-- C1: conservation of supply — initialization establishes the invariant
`sum of all balances = total_supply`; `set_allowance`, `transfer` and
`transfer_from` preserve it and never change `total_supply`; mint phase 1
leaves the state (hence the invariant) untouched; and a successful
`finish_mint` raises the recipient balance and the total supply by the same
amount, preserving the invariant. Read operations are pure functions of the
state by construction. -/
theorem C1_conservation :
    (∀ se o ts pa vm ft', FungibleToken.new se o ts pa vm = Except.ok ft' →
      conserved ft') ∧
    (∀ env ft e al ft', conserved ft →
      FungibleToken.set_allowance env ft e al = Except.ok ft' →
      conserved ft' ∧ ft'.total_supply = ft.total_supply) ∧
    (∀ env ft r a ft', conserved ft → FungibleToken.transfer env ft r a = Except.ok ft' →
      conserved ft' ∧ ft'.total_supply = ft.total_supply) ∧
    (∀ env ft o r a ft', conserved ft →
      FungibleToken.transfer_from env ft o r a = Except.ok ft' →
      conserved ft' ∧ ft'.total_supply = ft.total_supply) ∧
    (∀ env ft r a p, conserved ft → conserved (FungibleToken.mint env ft r a p).1) ∧
    (∀ env ft v r a ft', conserved ft →
      FungibleToken.finish_mint env ft v r a = Except.ok ft' →
      conserved ft' ∧ ft'.total_supply = ft.total_supply + a ∧
      (ft'.get_account r).balance = (ft.get_account r).balance + a) := by
  refine ⟨?_, ?_, ?_, ?_, ?_, ?_⟩
  · intro se o ts pa vm ft' h
    obtain ⟨_, _, hft'⟩ := new_ok_elim se o ts pa vm ft' h
    subst hft'
    simp [conserved, sumBalances]
  · intro env ft e al ft' hc h
    exact set_allowance_conserves env ft e al ft' hc h
  · intro env ft r a ft' hc h
    exact transfer_from_conserves env ft _ r a ft' hc h
  · intro env ft o r a ft' hc h
    exact transfer_from_conserves env ft o r a ft' hc h
  · intro env ft r a p hc
    exact hc
  · intro env ft v r a ft' hc h
    exact finish_mint_conserves env ft v r a ft' hc h

/-- C1 witness: the conservation theorem applied to a concrete direct
transfer of 5 from carol to alice on the example ledger. -/
theorem C1_conservation_witness :
    conserved exampleFt ∧ conserved exampleAfterTransfer ∧
    exampleAfterTransfer.total_supply = exampleFt.total_supply :=
  ⟨by decide,
    (C1_conservation.2.2.1 envCarol exampleFt "alice.near" 5 exampleAfterTransfer
      (by decide) (by decide)).1,
    (C1_conservation.2.2.1 envCarol exampleFt "alice.near" 5 exampleAfterTransfer
      (by decide) (by decide)).2⟩

/-- C2: `finish_mint` called by any identity other than the contract itself
fails with the caller-identity error for either value of the verification
flag — the caller check is decided before the flag is examined — and the
error return models the host discarding all effects of the call. -/
theorem C2_finish_mint_caller_guard (env : Env) (ft : FungibleToken) (v : Bool)
    (r : AccountId) (a : Nat)
    (h : env.predecessor_account_id ≠ env.current_account_id) :
    ft.finish_mint env v r a = Except.error TokenError.callerNotContract :=
  finish_mint_not_self env ft v r a h

/-- C2 witness: bob (not the contract) cannot call `finish_mint`, with the
verification flag both false and true. -/
theorem C2_witness :
    envBob.predecessor_account_id ≠ envBob.current_account_id ∧
    exampleFt.finish_mint envBob false "alice.near" 3
      = Except.error TokenError.callerNotContract ∧
    exampleFt.finish_mint envBob true "alice.near" 3
      = Except.error TokenError.callerNotContract :=
  ⟨by decide,
    C2_finish_mint_caller_guard envBob exampleFt false "alice.near" 3 (by decide),
    C2_finish_mint_caller_guard envBob exampleFt true "alice.near" 3 (by decide)⟩

/-- C3 counterexample: with the caller equal to the contract and
`verification_success = true`, a `finish_mint` whose credit would overflow
the u128 balance of the recipient aborts with an overflow error instead of
increasing the recipient balance and the total supply. -/
theorem C3_counterexample :
    envToken.predecessor_account_id = envToken.current_account_id ∧
    maxFt.finish_mint envToken true "bob.near" 1 = Except.error TokenError.overflow :=
  ⟨by decide, by decide⟩

/-- C3 (amended): for calls by the contract itself, `verification_success =
false` aborts with no state change, and `verification_success = true` —
provided neither 128-bit addition overflows — raises the recipient balance
and the total supply by exactly the given amount, leaving every other
account and the allowances of the recipient unchanged. -/
theorem C3_finish_mint_guarded (env : Env) (ft : FungibleToken) (r : AccountId)
    (a : Nat) (hself : env.predecessor_account_id = env.current_account_id) :
    ft.finish_mint env false r a = Except.error TokenError.verificationFailed ∧
    ((ft.get_account r).balance + a < U128_LIMIT → ft.total_supply + a < U128_LIMIT →
      ∃ ft', ft.finish_mint env true r a = Except.ok ft' ∧
        (ft'.get_account r).balance = (ft.get_account r).balance + a ∧
        ft'.total_supply = ft.total_supply + a ∧
        (∀ x, x ≠ r → ft'.get_account x = ft.get_account x) ∧
        (ft'.get_account r).allowances = (ft.get_account r).allowances) := by
  refine ⟨finish_mint_failed_verification env ft r a hself, ?_⟩
  intro hb hts
  exact finish_mint_ok_props env ft r a hself hb hts

/-- C3 witness: the guarded mint-completion theorem applied on the example
ledger for an amount of 7 to bob. -/
theorem C3_witness :
    envToken.predecessor_account_id = envToken.current_account_id ∧
    exampleFt.finish_mint envToken false "bob.near" 7
      = Except.error TokenError.verificationFailed ∧
    ∃ ft', exampleFt.finish_mint envToken true "bob.near" 7 = Except.ok ft' ∧
      (ft'.get_account "bob.near").balance
        = (exampleFt.get_account "bob.near").balance + 7 ∧
      ft'.total_supply = exampleFt.total_supply + 7 :=
  ⟨by decide, (C3_finish_mint_guarded envToken exampleFt "bob.near" 7 (by decide)).1,
    by
      obtain ⟨ft', h1, h2, h3, _, _⟩ :=
        (C3_finish_mint_guarded envToken exampleFt "bob.near" 7 (by decide)).2
          (by decide) (by decide)
      exact ⟨ft', h1, h2, h3⟩⟩

/-- C4 counterexample: a delegated `transfer_from` whose recipient equals the
owner satisfies every hypothesis of the claim (caller distinct from owner,
valid identifiers, positive amount within balance and allowance), yet the
balance of the owner is left unchanged — not decreased by the amount. -/
theorem C4_counterexample :
    envBob.predecessor_account_id ≠ "carol.near" ∧
    is_valid_account_id "carol.near" = true ∧
    (0 : Nat) < 5 ∧
    5 ≤ (exampleFt.get_account "carol.near").balance ∧
    5 ≤ (exampleFt.get_account "carol.near").get_allowance
      envBob.predecessor_account_id ∧
    exampleFt.transfer_from envBob "carol.near" "carol.near" 5 = Except.ok c4Result ∧
    (c4Result.get_account "carol.near").balance
      = (exampleFt.get_account "carol.near").balance :=
  ⟨by decide, by decide, by decide, by decide, by decide, by decide, by decide⟩

/-- C4 (amended): delegated `transfer_from` with recipient distinct from the
owner, in a state satisfying the conservation invariant with a u128 total
supply: the call succeeds, debits the owner by the amount, credits the
recipient by the amount, debits the allowance of the caller by exactly the
amount, and leaves `total_supply` unchanged. -/
theorem C4_delegated_transfer (env : Env) (ft : FungibleToken) (o r : AccountId)
    (a : Nat) (hwf : WF ft) (hvo : is_valid_account_id o = true)
    (hvr : is_valid_account_id r = true) (ha : 0 < a) (hro : r ≠ o)
    (hdel : env.predecessor_account_id ≠ o)
    (hbal : a ≤ (ft.get_account o).balance)
    (hallow : a ≤ (ft.get_account o).get_allowance env.predecessor_account_id) :
    ∃ ft', ft.transfer_from env o r a = Except.ok ft' ∧
      (ft'.get_account o).balance = (ft.get_account o).balance - a ∧
      (ft'.get_account r).balance = (ft.get_account r).balance + a ∧
      (ft'.get_account o).get_allowance env.predecessor_account_id
        = (ft.get_account o).get_allowance env.predecessor_account_id - a ∧
      ft'.total_supply = ft.total_supply := by
  obtain ⟨hc, hlim⟩ := hwf
  have hb2 : (ft.get_account r).balance + a < U128_LIMIT := by
    have := two_balances_le_total ft hc r o hro
    omega
  refine ⟨_, transfer_from_delegated_ok env ft o r a hvo hvr ha hro hdel hbal hallow hb2,
    ?_, ?_, ?_, rfl⟩
  · rw [get_account_set_account_ne _ _ _ _ (fun hh => hro hh.symm),
      get_account_set_account_self, Account.set_allowance_balance]
  · rw [get_account_set_account_self]
  · rw [get_account_set_account_ne _ _ _ _ (fun hh => hro hh.symm),
      get_account_set_account_self, Account.get_allowance_set_allowance_self]

/-- C4 witness: the amended delegated-transfer theorem applied to bob
transferring 5 from carol to alice on the example ledger. -/
theorem C4_witness :
    WF exampleFt ∧
    ∃ ft', exampleFt.transfer_from envBob "carol.near" "alice.near" 5 = Except.ok ft' ∧
      (ft'.get_account "carol.near").balance
        = (exampleFt.get_account "carol.near").balance - 5 ∧
      (ft'.get_account "alice.near").balance
        = (exampleFt.get_account "alice.near").balance + 5 ∧
      (ft'.get_account "carol.near").get_allowance envBob.predecessor_account_id
        = (exampleFt.get_account "carol.near").get_allowance
            envBob.predecessor_account_id - 5 ∧
      ft'.total_supply = exampleFt.total_supply :=
  ⟨by decide, C4_delegated_transfer envBob exampleFt "carol.near" "alice.near" 5
    (by decide) (by decide) (by decide) (by decide) (by decide) (by decide) (by decide)
    (by decide)⟩

/-- C5: a `transfer_from` with valid identifiers and a positive amount
strictly above the balance of the owner fails with the insufficient-balance
error, whatever the allowance state is — the balance check is decided before
the allowance check — and the error return models the host discarding all
effects. -/
theorem C5_insufficient_balance (env : Env) (ft : FungibleToken) (o r : AccountId)
    (a : Nat) (hvo : is_valid_account_id o = true) (hvr : is_valid_account_id r = true)
    (ha : 0 < a) (hbal : (ft.get_account o).balance < a) :
    ft.transfer_from env o r a = Except.error TokenError.notEnoughBalance :=
  transfer_from_insufficient_balance env ft o r a hvo hvr ha hbal

/-- C5 witness: bob tries to transfer 200 from carol who holds 100 — the
allowance of bob (10) is also insufficient, yet the reported error is the
balance one, showing the balance check decides first. -/
theorem C5_witness :
    is_valid_account_id "carol.near" = true ∧
    (exampleFt.get_account "carol.near").balance < 200 ∧
    (exampleFt.get_account "carol.near").get_allowance
      envBob.predecessor_account_id < 200 ∧
    exampleFt.transfer_from envBob "carol.near" "alice.near" 200
      = Except.error TokenError.notEnoughBalance :=
  ⟨by decide, by decide, by decide,
    C5_insufficient_balance envBob exampleFt "carol.near" "alice.near" 200 (by decide)
      (by decide) (by decide) (by decide)⟩

/-- C6: u128 overflow is fatal at all three credit sites — the recipient
credit of `transfer_from` (once every earlier check has passed) and, in
`finish_mint`, first the recipient-balance addition and then the
total-supply addition: whenever the sum reaches `2 ^ 128`, the call fails
with an overflow error instead of wrapping. Overflow behaviour is modelled
from the spec, since the build profile is not part of the sources. -/
theorem C6_overflow_fatal :
    (∀ env ft o r a, is_valid_account_id o = true → is_valid_account_id r = true →
      0 < a → r ≠ o → a ≤ (ft.get_account o).balance →
      (env.predecessor_account_id = o ∨
        a ≤ (ft.get_account o).get_allowance env.predecessor_account_id) →
      U128_LIMIT ≤ (ft.get_account r).balance + a →
      FungibleToken.transfer_from env ft o r a = Except.error TokenError.overflow) ∧
    (∀ env ft r a, env.predecessor_account_id = env.current_account_id →
      U128_LIMIT ≤ (ft.get_account r).balance + a →
      FungibleToken.finish_mint env ft true r a = Except.error TokenError.overflow) ∧
    (∀ env ft r a, env.predecessor_account_id = env.current_account_id →
      (ft.get_account r).balance + a < U128_LIMIT →
      U128_LIMIT ≤ ft.total_supply + a →
      FungibleToken.finish_mint env ft true r a = Except.error TokenError.overflow) := by
  refine ⟨?_, ?_, ?_⟩
  · intro env ft o r a hvo hvr ha hro hbal hstep hover
    exact transfer_from_credit_overflow env ft o r a hvo hvr ha hro hbal hstep hover
  · intro env ft r a hself hover
    exact finish_mint_overflow_balance env ft r a hself hover
  · intro env ft r a hself hb hover
    exact finish_mint_overflow_supply env ft r a hself hb hover

/-- C6 witness: on the ledger where bob already holds `2 ^ 128 - 1`, a
verified mint of one more token aborts with the overflow error. -/
theorem C6_witness :
    envToken.predecessor_account_id = envToken.current_account_id ∧
    U128_LIMIT ≤ (maxFt.get_account "bob.near").balance + 1 ∧
    maxFt.finish_mint envToken true "bob.near" 1 = Except.error TokenError.overflow :=
  ⟨by decide, by decide,
    C6_overflow_fatal.2.1 envToken maxFt "bob.near" 1 (by decide) (by decide)⟩

/-- C7: initialization is exactly-once and credits the owner with the full
supply — with no prior state and a valid owner it succeeds and afterwards
`get_total_supply` and `get_balance owner` both equal the given supply; with
prior state it fails with the already-initialized error; with an invalid
owner identifier it always fails with the invalid-owner error. -/
theorem C7_initialization :
    (∀ o ts pa vm, is_valid_account_id o = true →
      ∃ ft', FungibleToken.new false o ts pa vm = Except.ok ft' ∧
        ft'.get_total_supply = ts ∧ ft'.get_balance o = ts) ∧
    (∀ o ts pa vm, is_valid_account_id o = true →
      FungibleToken.new true o ts pa vm = Except.error TokenError.alreadyInitialized) ∧
    (∀ se o ts pa vm, is_valid_account_id o = false →
      FungibleToken.new se o ts pa vm = Except.error TokenError.invalidOwnerId) := by
  refine ⟨?_, ?_, ?_⟩
  · intro o ts pa vm hv
    refine ⟨_, new_ok_spec o ts pa vm hv, rfl, ?_⟩
    simp [FungibleToken.get_balance, FungibleToken.get_account, mapGet]
  · intro o ts pa vm hv
    exact new_already_initialized o ts pa vm hv
  · intro se o ts pa vm hv
    exact new_invalid_owner se o ts pa vm hv

/-- C7 witness: initializing for carol with supply 100 succeeds exactly once,
and a second initialization is rejected. -/
theorem C7_witness :
    is_valid_account_id "carol.near" = true ∧
    FungibleToken.new true "carol.near" 100 "prover.near" true
      = Except.error TokenError.alreadyInitialized ∧
    ∃ ft', FungibleToken.new false "carol.near" 100 "prover.near" true = Except.ok ft' ∧
      ft'.get_total_supply = 100 ∧ ft'.get_balance "carol.near" = 100 :=
  ⟨by decide, C7_initialization.2.1 "carol.near" 100 "prover.near" true (by decide),
    C7_initialization.1 "carol.near" 100 "prover.near" true (by decide)⟩

/-- C8: zero allowances are never stored — `set_allowance` with amount 0
removes the entry; `get_allowance` returns 0 on an absent entry; the
all-entries-positive invariant of an allowance table is preserved by any
`set_allowance`; and a delegated transfer that consumes the allowance
exactly leaves the key absent rather than stored as zero. -/
theorem C8_zero_allowances :
    (∀ acc : Account, ∀ e : AccountId,
      mapGet (acc.set_allowance e 0).allowances e = none) ∧
    (∀ acc : Account, ∀ e : AccountId,
      mapGet acc.allowances e = none → acc.get_allowance e = 0) ∧
    (∀ acc : Account, ∀ e : AccountId, ∀ a : Nat,
      allowancesPositive acc → allowancesPositive (acc.set_allowance e a)) ∧
    (∀ env ft o r a ft', env.predecessor_account_id ≠ o →
      (ft.get_account o).get_allowance env.predecessor_account_id = a →
      FungibleToken.transfer_from env ft o r a = Except.ok ft' →
      mapGet (ft'.get_account o).allowances env.predecessor_account_id = none) := by
  refine ⟨?_, ?_, ?_, ?_⟩
  · intro acc e
    exact Account.set_allowance_zero_removes acc e
  · intro acc e h
    unfold Account.get_allowance
    rw [h]
    rfl
  · intro acc e a h
    exact allowancesPositive_set_allowance acc e a h
  · intro env ft o r a ft' hdel hex h
    exact transfer_from_allowance_exhausted env ft o r a ft' hdel hex h

/-- C8 witness: bob spends his exact allowance of 10 on carol; afterwards the
allowance key of bob is absent from the account of carol. -/
theorem C8_witness :
    envBob.predecessor_account_id ≠ "carol.near" ∧
    (exampleFt.get_account "carol.near").get_allowance
      envBob.predecessor_account_id = 10 ∧
    exampleFt.transfer_from envBob "carol.near" "alice.near" 10 = Except.ok c8Result ∧
    mapGet (c8Result.get_account "carol.near").allowances
      envBob.predecessor_account_id = none :=
  ⟨by decide, by decide, by decide,
    C8_zero_allowances.2.2.2 envBob exampleFt "carol.near" "alice.near" 10 c8Result
      (by decide) (by decide) (by decide)⟩

/-- C9: mint phase 1 mutates no ledger state — the state component of the
result is the input state unchanged — and the pending promise forwards the
six proof fields unmodified to the prover at `prover_account` with
`skip_bridge_call = !verify_ethash`, chaining a `finish_mint` continuation
addressed to the contract itself. -/
theorem C9_mint_phase1_pure (env : Env) (ft : FungibleToken) (r : AccountId) (a : Nat)
    (p : Proof) :
    (FungibleToken.mint env ft r a p).1 = ft ∧
    (FungibleToken.mint env ft r a p).2.call.skip_bridge_call = !ft.verify_ethash ∧
    (FungibleToken.mint env ft r a p).2.call.log_index = p.log_index ∧
    (FungibleToken.mint env ft r a p).2.call.log_entry_data = p.log_entry_data ∧
    (FungibleToken.mint env ft r a p).2.call.receipt_index = p.receipt_index ∧
    (FungibleToken.mint env ft r a p).2.call.receipt_data = p.receipt_data ∧
    (FungibleToken.mint env ft r a p).2.call.header_data = p.header_data ∧
    (FungibleToken.mint env ft r a p).2.call.proof = p.proof ∧
    (FungibleToken.mint env ft r a p).2.call.receiver = ft.prover_account ∧
    (FungibleToken.mint env ft r a p).2.callback.new_owner_id = r ∧
    (FungibleToken.mint env ft r a p).2.callback.amount = a ∧
    (FungibleToken.mint env ft r a p).2.callback.receiver = env.current_account_id :=
  ⟨rfl, rfl, rfl, rfl, rfl, rfl, rfl, rfl, rfl, rfl, rfl, rfl⟩

/-- C10: a successful self-transfer leaves the balance of the owner unchanged
(the recipient account is re-read after the debited owner account is
persisted), both in the direct case and in the delegated case, where the
allowance of the caller is nonetheless decremented by the amount. -/
theorem C10_self_transfer (env : Env) (ft : FungibleToken) (o : AccountId) (a : Nat)
    (hvo : is_valid_account_id o = true) (ha : 0 < a)
    (hbal : a ≤ (ft.get_account o).balance)
    (hlt : (ft.get_account o).balance < U128_LIMIT) :
    (env.predecessor_account_id = o →
      ∃ ft', ft.transfer_from env o o a = Except.ok ft' ∧
        (ft'.get_account o).balance = (ft.get_account o).balance) ∧
    (env.predecessor_account_id ≠ o →
      a ≤ (ft.get_account o).get_allowance env.predecessor_account_id →
      ∃ ft', ft.transfer_from env o o a = Except.ok ft' ∧
        (ft'.get_account o).balance = (ft.get_account o).balance ∧
        (ft'.get_account o).get_allowance env.predecessor_account_id
          = (ft.get_account o).get_allowance env.predecessor_account_id - a) := by
  constructor
  · intro hpred
    obtain ⟨ft', h1, h2, _, _⟩ :=
      transfer_from_self_direct_ok env ft o a hvo ha hpred hbal hlt
    exact ⟨ft', h1, h2⟩
  · intro hdel hallow
    obtain ⟨ft', h1, h2, h3, _⟩ :=
      transfer_from_self_delegated_ok env ft o a hvo ha hdel hbal hallow hlt
    exact ⟨ft', h1, h2, h3⟩

/-- C10 witness: bob delegately transfers 5 from carol back to carol — the
balance of carol stays 100 while the allowance of bob drops from 10 to 5. -/
theorem C10_witness :
    (0 : Nat) < 5 ∧ 5 ≤ (exampleFt.get_account "carol.near").balance ∧
    (exampleFt.get_account "carol.near").balance < U128_LIMIT ∧
    envBob.predecessor_account_id ≠ "carol.near" ∧
    ∃ ft', exampleFt.transfer_from envBob "carol.near" "carol.near" 5 = Except.ok ft' ∧
      (ft'.get_account "carol.near").balance
        = (exampleFt.get_account "carol.near").balance ∧
      (ft'.get_account "carol.near").get_allowance envBob.predecessor_account_id
        = (exampleFt.get_account "carol.near").get_allowance
            envBob.predecessor_account_id - 5 :=
  ⟨by decide, by decide, by decide, by decide,
    (C10_self_transfer envBob exampleFt "carol.near" 5 (by decide) (by decide)
      (by decide) (by decide)).2 (by decide) (by decide)⟩
